import Mathlib

/-!
Verification of the Fruit_Jam_Library storefront (`src/code.py`) against its
natural-language specification.  The Python code is shallowly embedded:
strings are `List Char`, fallible code returns explicit result inductives,
the cooperative UI session state is an explicit record, and the external
collaborators that the spec rules out of scope (HTTP client, JSON parser,
display toolkit geometry, the real file system) appear as parameters whose
observable behaviour matches what the code relies on.
-/

namespace FruitJam

/-! ### Python string primitives (on `List Char`) -/

/-- Python `str.isspace`-style whitespace test used by `str.strip()`
(ASCII subset; all strings in the program are ASCII). -/
def pyIsSpace (c : Char) : Bool :=
  c == ' ' || c == '\t' || c == '\n' || c == '\r' || c == '\x0b' || c == '\x0c'

/-- The two separator characters that `show_page` replaces with spaces
(`repo_name.replace("-", " ").replace("_", " ")`, code.py:445). -/
def isSepC (c : Char) : Bool := c == '-' || c == '_'

/-- Python `s.replace(a, b)` for single-character `a`, `b`. -/
def pyReplace (l : List Char) (a b : Char) : List Char :=
  l.map fun c => if c == a then b else c

/-- Python `s.split(sep)` for a single-character separator: splits at every
occurrence, keeping empty pieces (`"".split(" ") == [""]`,
`"a  b".split(" ") == ["a","","b"]`). -/
def splitOnChar (sep : Char) : List Char → List (List Char)
  | [] => [[]]
  | c :: rest =>
    match splitOnChar sep rest with
    | [] => [[]]
    | w :: ws => if c == sep then [] :: w :: ws else (c :: w) :: ws

/-- Remove trailing whitespace (the right half of Python `str.strip()`). -/
def stripEnd : List Char → List Char
  | [] => []
  | c :: rest =>
    match stripEnd rest with
    | [] => if pyIsSpace c then [] else [c]
    | r => c :: r

/-- Python `str.strip()`: drop whitespace from both ends. -/
def pyStripL (l : List Char) : List Char := stripEnd (l.dropWhile pyIsSpace)

/-- Python `s.startswith(pat)`. -/
def listStartsWith : List Char → List Char → Bool
  | _, [] => true
  | [], _ :: _ => false
  | c :: s, p :: ps => c == p && listStartsWith s ps

/-- Python `s.endswith(pat)`. -/
def listEndsWith (s pat : List Char) : Bool :=
  listStartsWith s.reverse pat.reverse

/-- Python `" ".join(ws)`. -/
def joinSpace : List (List Char) → List Char
  | [] => []
  | [w] => w
  | w :: ws => w ++ ' ' :: joinSpace ws

/-- One word of the title-casing step of `show_page`
(`word[0].upper() + word[1:].lower()`, code.py:446); `none` models the
`IndexError` that `word[0]` raises on an empty word. -/
def titleCaseWord : List Char → Option (List Char)
  | [] => none
  | c :: rest => some (c.toUpper :: rest.map Char.toLower)

/-- Title-case every word; `none` as soon as one word is empty. -/
def titleWords : List (List Char) → Option (List (List Char))
  | [] => some []
  | w :: ws =>
    match titleCaseWord w, titleWords ws with
    | some a, some b => some (a :: b)
    | _, _ => none

/-- The brand name stripped from derived titles (code.py:447). -/
def fjBrand : List Char := "Fruit Jam".data

/-- Title derivation from a repository short name, exactly as in
`show_page` (code.py:444-448): replace `-` and `_` by spaces, `strip`,
title-case each space-separated word, re-join with single spaces, and if
the result starts with `"Fruit Jam"` drop those 9 characters and `strip`
again.  `none` models the `IndexError` raised by `word[0]` on an empty
word (adjacent separators, or nothing but separators). -/
def deriveTitle (repoName : List Char) : Option (List Char) :=
  let t := pyStripL (pyReplace (pyReplace repoName '-' ' ') '_' ' ')
  match titleWords (splitOnChar ' ' t) with
  | none => none
  | some ws =>
    let ti := joinSpace ws
    if listStartsWith ti fjBrand then some (pyStripL (ti.drop fjBrand.length))
    else some ti

/-! ### The file cache (`_download_file` / `download_json` / `download_image`,
code.py:365-398).

The HTTP client (`fj.network.wget`) and the JSON parser (`json.loads`) are
external collaborators; they are parameters: `remote` maps a URL to the
response body (or `none` for a network error raised by `wget`, which is
assumed to leave no file behind), `parse` maps a body to a parsed value (or
`none` for a `ValueError`).  The SD-card cache directory is an association
list from path to file content, and every model step reports how many `wget`
network requests it issued. -/

/-- The Python exception kinds the program distinguishes. -/
inductive PyErr where
  | osError
  | valueError
  | httpError
  | keyError
  | indexError
deriving DecidableEq, Repr

/-- Result of a fallible Python call: a value or a raised exception. -/
inductive PyResult (α : Type) where
  | ok (a : α)
  | err (e : PyErr)
deriving DecidableEq, Repr

/-- The cache directory: path to file content. -/
abbrev FS : Type := List (List Char × List Char)

/-- Existence/read lookup (`os.stat` + `open`) in the cache directory. -/
def lookupFS : FS → List Char → Option (List Char)
  | [], _ => none
  | (p, c) :: rest, q => if p = q then some c else lookupFS rest q

/-- The cache path computed by `_download_file` (code.py:365-373): prepend a
dot to the extension if missing; default the name to the last `/`-component
of the URL minus the extension length; strip the extension from an explicit
name that ends with it; then `"/sd/.cache/" + name + extension`.
Python's `s[:-k]` is `take (length - k)`. -/
def cachePath (url ext : List Char) (nm : Option (List Char)) : List Char :=
  let ext := if listStartsWith ext ".".data then ext else '.' :: ext
  let base :=
    match nm with
    | none =>
      let last := (splitOnChar '/' url).getLastD []
      last.take (last.length - ext.length)
    | some n => if listEndsWith n ext then n.take (n.length - ext.length) else n
  "/sd/.cache/".data ++ base ++ ext

/-- Outcome of one cache-layer call: result, cache state after the call, and
the number of `wget` network requests issued. -/
structure DlOut (α : Type) where
  result : PyResult α
  fs : FS
  wgets : Nat

/-- `_download_file` (code.py:365-381): compute the cache path; if a file
already exists there return the path without touching the network, otherwise
`wget` the URL to that path (a network failure raises `OSError` and, `wget`
being atomic, writes nothing). -/
def downloadFileFn (remote : List Char → Option (List Char)) (fs : FS)
    (url ext : List Char) (nm : Option (List Char)) : DlOut (List Char) :=
  let path := cachePath url ext nm
  match lookupFS fs path with
  | some _ => ⟨.ok path, fs, 0⟩
  | none =>
    match remote url with
    | none => ⟨.err .osError, fs, 1⟩
    | some content => ⟨.ok path, (path, content) :: fs, 1⟩

/-- The `.bmp` extension `download_image` passes. -/
def bmpExt : List Char := ".bmp".data

/-- The `.json` extension `download_json` passes. -/
def jsonExt : List Char := ".json".data

/-- `download_image` (code.py:383-388): `_download_file` with `.bmp`. -/
def downloadImageFn (remote : List Char → Option (List Char)) (fs : FS)
    (url : List Char) (nm : Option (List Char)) : DlOut (List Char) :=
  downloadFileFn remote fs url bmpExt nm

/-- `download_json` (code.py:390-398): `_download_file` with `.json`, then
open the cached file and `json.loads` its content (raising `ValueError` on a
malformed body). -/
def downloadJsonFn {α : Type} (remote : List Char → Option (List Char))
    (parse : List Char → Option α) (fs : FS)
    (url : List Char) (nm : Option (List Char)) : DlOut α :=
  let d := downloadFileFn remote fs url jsonExt nm
  match d.result with
  | .err e => ⟨.err e, d.fs, d.wgets⟩
  | .ok path =>
    match lookupFS d.fs path with
    | none => ⟨.err .osError, d.fs, d.wgets⟩
    | some content =>
      match parse content with
      | none => ⟨.err .valueError, d.fs, d.wgets⟩
      | some j => ⟨.ok j, d.fs, d.wgets⟩

/-! ### Item population (`show_page`'s per-item body, code.py:437-519).

The network and the image decoder are parameters (`NetEnv`); the fetch
helpers return typed records for the JSON documents (the JSON parser is an
out-of-scope collaborator).  The embedding keeps the code's control flow:
only `(OSError, ValueError, HttpError)` are caught around the three fetches,
and `adafruit_imageload.load` sits in the `else` clause of the icon `try`,
outside its protection. -/

/-- URL base for raw file content (code.py:37-40). -/
def ghRawBase : List Char := "https://raw.githubusercontent.com/".data

/-- `REPO_URL.format(full_name)` (code.py:39): the hosting-API endpoint. -/
def repoApiUrl (fullName : List Char) : List Char :=
  "https://api.github.com/repos/".data ++ fullName

/-- `METADATA_URL.format(full_name)` (code.py:38): the per-application
metadata document URL, with the branch path hard-wired in the template. -/
def metadataUrl (fullName : List Char) : List Char :=
  ghRawBase ++ fullName ++ "/refs/heads/main/metadata.json".data

/-- `ICON_URL.format(full_name, branch, icon)` (code.py:40). -/
def iconRawUrl (fullName branch icPath : List Char) : List Char :=
  ghRawBase ++ fullName ++ ('/' :: branch) ++ ('/' :: icPath)

/-- Modelled from the spec: the metadata-document URL the spec describes,
"fetched from a fixed path on the repository's default branch" — the code's
URL shape with the branch segment taken from the repository record instead
of a constant.  Used only to compare the code's `metadataUrl` against the
spec's words (claim C9). -/
def specMetadataUrl (fullName branch : List Char) : List Char :=
  ghRawBase ++ fullName ++ ("/refs/heads/".data ++ branch ++ "/metadata.json".data)

/-- The fields of the hosting-API repository document that `show_page`
consumes (`owner.login`, `description`, `default_branch`, `name`). -/
structure RepoInfo where
  ownerLogin : List Char
  description : List Char
  defaultBranch : List Char
  name : List Char
deriving DecidableEq, Repr

/-- The fields of the optional per-application metadata document
(`title` accessed unconditionally, `description`/`icon` guarded by `in`). -/
structure MetaInfo where
  title : List Char
  descr : Option (List Char)
  icon : Option (List Char)
deriving DecidableEq, Repr

/-- Icon shown in an item slot: the built-in default bitmap/palette, or a
bitmap decoded from a cached file. -/
inductive Icon where
  | default
  | loaded (path : List Char)
deriving DecidableEq, Repr

/-- One grid slot's widget state (`item_group` and its children,
code.py:243-297): visibility, icon, title/author/description text and the
"installed" badge's visibility. -/
structure Slot where
  hidden : Bool
  icon : Icon
  title : List Char
  author : List Char
  descr : List Char
  installedHidden : Bool
deriving DecidableEq, Repr

/-- A slot as built at startup (code.py:243-297): hidden, default icon,
placeholder texts, installed badge visible (its group hides it). -/
def slotInit : Slot :=
  { hidden := true, icon := .default, title := "[title]".data,
    author := "[author]".data, descr := "[description]".data,
    installedHidden := false }

/-- The external world one page load sees: the three fetch endpoints (each
returning a parsed document or a raised exception), the image decoder, and
the `/sd/apps/<name>` installed-directory check. -/
structure NetEnv where
  fetchRepo : List Char → PyResult RepoInfo
  fetchMeta : List Char → PyResult MetaInfo
  fetchIcon : List Char → PyResult (List Char)
  decodeImg : List Char → PyResult Unit
  installed : List Char → Bool

/-- The exception kinds caught by the three fetch `try` blocks
(`except (OSError, ValueError, HttpError)`, code.py:475/493/510). -/
def caughtNet : PyErr → Bool
  | .osError => true
  | .valueError => true
  | .httpError => true
  | _ => false

/-- A network request issued during item population, with its URL. -/
inductive NetReq where
  | repoReq (url : List Char)
  | metaReq (url : List Char)
  | iconReq (url : List Char)
deriving DecidableEq, Repr

/-- Outcome of populating one item: the updated slot and the requests
issued, or an exception escaping the loop (with the slot state at raise). -/
inductive ItemOut where
  | ok (slot : Slot) (reqs : List NetReq)
  | err (e : PyErr) (slot : Slot)
deriving DecidableEq, Repr

/-- The body of `show_page`'s population loop for one item
(code.py:441-519): split the full name (`ValueError` unless exactly one
`/`), derive the title (`IndexError` on an empty word), show the slot with
default details and the installed badge, then sequentially fetch the
repository document, the metadata document and the icon, each failure of a
caught kind degrading to a fallback; a successful icon download is then
decoded OUTSIDE any `try`, so a decode failure escapes. -/
def populateItem (env : NetEnv) (fullName : List Char) (slot0 : Slot) :
    ItemOut :=
  match splitOnChar '/' fullName with
  | [repoOwner, repoName] =>
    match deriveTitle repoName with
    | none => .err .indexError slot0
    | some title =>
      let slot : Slot :=
        { slot0 with icon := .default, title := title, author := repoOwner,
                     descr := "Loading...".data, hidden := false,
                     installedHidden := !(env.installed repoName) }
      match env.fetchRepo (repoApiUrl fullName) with
      | .err e =>
        if caughtNet e then
          .ok { slot with descr := [] } [.repoReq (repoApiUrl fullName)]
        else .err e slot
      | .ok repo =>
        let slot := { slot with author := repo.ownerLogin,
                                descr := repo.description }
        match env.fetchMeta (metadataUrl fullName) with
        | .err e =>
          if caughtNet e then
            .ok slot [.repoReq (repoApiUrl fullName),
                      .metaReq (metadataUrl fullName)]
          else .err e slot
        | .ok meta =>
          let slot := { slot with title := meta.title }
          let slot :=
            match meta.descr with
            | some d => { slot with descr := d }
            | none => slot
          match meta.icon with
          | none =>
            .ok slot [.repoReq (repoApiUrl fullName),
                      .metaReq (metadataUrl fullName)]
          | some ic =>
            match env.fetchIcon (iconRawUrl fullName repo.defaultBranch ic) with
            | .err e =>
              if caughtNet e then
                .ok slot [.repoReq (repoApiUrl fullName),
                          .metaReq (metadataUrl fullName),
                          .iconReq (iconRawUrl fullName repo.defaultBranch ic)]
              else .err e slot
            | .ok iconPath =>
              match env.decodeImg iconPath with
              | .err e => .err e slot
              | .ok _ =>
                .ok { slot with icon := .loaded iconPath }
                  [.repoReq (repoApiUrl fullName),
                   .metaReq (metadataUrl fullName),
                   .iconReq (iconRawUrl fullName repo.defaultBranch ic)]
  | _ => .err .valueError slot0

/-! ### Session state and navigation (code.py:215-230, 243-340, 400-586,
589-626).

The grid geometry is fixed at startup: `PAGE_COLUMNS × PAGE_ROWS` cells at
grid positions `(index % PAGE_COLUMNS, index // PAGE_COLUMNS)`; the
`GridLayout.get_content` lookup of a position that was never added raises
(the toolkit is external; only the arity of the lookup matters here, so it
is modelled as a bounds check).  Exceptions escaping a navigation handler
carry the mutated session state at the moment of the raise. -/

/-- The grid shape: `PAGE_COLUMNS = SCALE` and `PAGE_ROWS = 3`
(code.py:95-97); `pageSize = cols * rows`. -/
structure Cfg where
  cols : Nat
  rows : Nat
deriving DecidableEq, Repr

/-- `PAGE_SIZE` (code.py:97). -/
def Cfg.pageSize (cfg : Cfg) : Nat := cfg.cols * cfg.rows

/-- `math.ceil(n / m)` for the page count label (code.py:435). -/
def ceilDivN (n m : Nat) : Nat := (n + m - 1) / m

/-- Decimal digits of a natural number (Python `"{:d}".format`). -/
def fmtNat (n : Nat) : List Char := Nat.toDigits 10 n

/-- Decimal rendering of an integer. -/
def fmtInt (i : Int) : List Char :=
  if i < 0 then '-' :: fmtNat i.natAbs else fmtNat i.natAbs

/-- The page label `"{:d}/{:d}".format(page + 1, total)` (code.py:435). -/
def fmtPage (p : Int) (total : Nat) : List Char :=
  fmtInt p ++ '/' :: fmtNat total

/-- The whole mutable UI session: the catalog (an ordered mapping loaded
once at startup), the module-level navigation state, and the visibility
flags of every widget group the handlers toggle. -/
structure Store where
  catalog : List (List Char × List (List Char))
  selectedCategory : Option (List Char)
  currentPage : Int
  pageLabel : List Char
  slots : List Slot
  buttonSelected : List Bool
  selectedApplication : Option (List Char)
  dialogHidden : Bool
  categoryGroupHidden : Bool
  itemGridHidden : Bool
  leftHidden : Bool
  rightHidden : Bool
deriving DecidableEq, Repr

/-- Catalog lookup (`applications[name]`). -/
def lookupA : List (List Char × List (List Char)) → List Char →
    Option (List (List Char))
  | [], _ => none
  | (k, v) :: rest, q => if k = q then some v else lookupA rest q

/-- Outcome of a navigation handler: the new state, or an exception
escaping with the state as mutated up to the raise. -/
inductive StepOut where
  | ok (s : Store)
  | err (e : PyErr) (s : Store)
deriving DecidableEq, Repr

/-- The state a step ends in, whether it returned or raised. -/
def stepState : StepOut → Store
  | .ok s => s
  | .err _ s => s

/-- Whether a step returned without raising. -/
def isOkStep : StepOut → Bool
  | .ok _ => true
  | .err _ _ => false

/-- Overwrite slot `i`. -/
def setSlot (s : Store) (i : Nat) (sl : Slot) : Store :=
  { s with slots := s.slots.set i sl }

/-- Hide every item slot (the `range(PAGE_SIZE)` hide loops,
code.py:413-414 and 430-431; all `PAGE_SIZE` grid positions exist). -/
def hideAllSlots (s : Store) : Store :=
  { s with slots := s.slots.map fun sl => { sl with hidden := true } }

/-- The population loop of `show_page` (code.py:437-519), iterating the
catalog index from `idx` for `count` steps: fetch the item at the global
index, look its grid cell up at position
`(index % PAGE_COLUMNS, index // PAGE_COLUMNS)` — a position outside the
`PAGE_ROWS` rows built at startup raises, as does an index outside the
category list — and populate it. -/
def popLoop (cfg : Cfg) (env : NetEnv) (apps : List (List Char)) :
    Store → Nat → Nat → StepOut
  | s, _, 0 => .ok s
  | s, idx, Nat.succ k =>
    match apps.get? idx with
    | none => .err .indexError s
    | some fullName =>
      let c := idx % cfg.cols
      let r := idx / cfg.cols
      if r < cfg.rows then
        match s.slots.get? (r * cfg.cols + c) with
        | none => .err .keyError s
        | some slot =>
          match populateItem env fullName slot with
          | .err e slot' => .err e (setSlot s idx slot')
          | .ok slot' _reqs => popLoop cfg env apps (setSlot s idx slot') (idx + 1) k
      else .err .keyError s

/-- `show_page(page)` (code.py:420-522): look up the selected category
(raising on `None` or a missing key, as `applications[selected_category]`
does while computing `end`); return unchanged when `start` is out of
`[0, len)`; otherwise hide every slot, set `current_page` and the page
label, and run the population loop from `start` to
`min((page+1)*PAGE_SIZE, len)`. -/
def showPage (cfg : Cfg) (env : NetEnv) (s : Store) (page : Int) : StepOut :=
  match s.selectedCategory with
  | none => .err .keyError s
  | some cat =>
    match lookupA s.catalog cat with
    | none => .err .keyError s
    | some apps =>
      let ps : Int := cfg.pageSize
      let start : Int := page * ps
      if start < 0 ∨ (apps.length : Int) ≤ start then .ok s
      else
        let stop : Int := min ((page + 1) * ps) apps.length
        let s := hideAllSlots s
        let s := { s with currentPage := page,
                          pageLabel := fmtPage (page + 1)
                            (ceilDivN apps.length cfg.pageSize) }
        popLoop cfg env apps s start.toNat (stop.toNat - start.toNat)

/-- `select_category(name)` (code.py:402-417): no-op when the name is not a
catalog key or is already selected; otherwise record the selection, set
each category button's `selected` to `label == name`, hide all item slots
and load the first page. -/
def selectCategory (cfg : Cfg) (env : NetEnv) (s : Store)
    (name : List Char) : StepOut :=
  let keys := s.catalog.map Prod.fst
  if ¬ (name ∈ keys) ∨ s.selectedCategory = some name then .ok s
  else
    let s := { s with selectedCategory := some name,
                      buttonSelected := keys.map fun k => k = name }
    let s := hideAllSlots s
    showPage cfg env s 0

/-- `next_page()` (code.py:524-526). -/
def nextPage (cfg : Cfg) (env : NetEnv) (s : Store) : StepOut :=
  showPage cfg env s (s.currentPage + 1)

/-- `previous_page()` (code.py:528-530). -/
def prevPage (cfg : Cfg) (env : NetEnv) (s : Store) : StepOut :=
  showPage cfg env s (s.currentPage - 1)

/-- The kinds of child widgets appended to each `item_group` at startup. -/
inductive Widget where
  | icon
  | installedBadge
  | title
  | author
  | descrBox
deriving DecidableEq, Repr

/-- The children of every `item_group`, in append order (code.py:243-291):
icon tile, installed badge, title label, author label, description box —
five widgets. -/
def itemGroupChildren : List Widget :=
  [.icon, .installedBadge, .title, .author, .descrBox]

/-- Python tuple unpacking into four targets: succeeds only on a list of
exactly four elements, otherwise raises `ValueError`. -/
def unpack4 {α : Type} : List α → Option (α × α × α × α)
  | [a, b, c, d] => some (a, b, c, d)
  | _ => none

/-- `select_application(index)` (code.py:538-565): offset the tapped cell
index by `current_page * PAGE_SIZE`; return unchanged when out of range;
otherwise record the selection, split it at `/` (`ValueError` unless
exactly two parts), hide the category buttons, the grid and both arrows,
fetch the tapped cell's group and unpack its FIVE children into FOUR names
(`item_icon, item_title, item_author, item_description = item_group`,
code.py:557) — and only afterwards reveal the dialog. -/
def selectApplication (cfg : Cfg) (s : Store) (index : Int) : StepOut :=
  let index := index + s.currentPage * (cfg.pageSize : Int)
  match s.selectedCategory with
  | none => .err .keyError s
  | some cat =>
    match lookupA s.catalog cat with
    | none => .err .keyError s
    | some apps =>
      if index < 0 ∨ (apps.length : Int) ≤ index then .ok s
      else
        match apps.get? index.toNat with
        | none => .err .indexError s
        | some fullName =>
          let s := { s with selectedApplication := some fullName }
          match splitOnChar '/' fullName with
          | [_repoOwner, _repoName] =>
            let s := { s with categoryGroupHidden := true,
                              itemGridHidden := true,
                              leftHidden := true, rightHidden := true }
            let pi := index.toNat % cfg.pageSize
            let c := pi % cfg.cols
            let r := pi / cfg.cols
            if r < cfg.rows then
              match s.slots.get? (r * cfg.cols + c) with
              | none => .err .keyError s
              | some _group =>
                match unpack4 itemGroupChildren with
                | none => .err .valueError s
                | some _ => .ok { s with dialogHidden := false }
            else .err .keyError s
          | _ => .err .valueError s

/-- `deselect_application()` (code.py:567-579): clear the selection, hide
the dialog, show the category buttons, the grid and both arrows. -/
def deselectApplication (s : Store) : Store :=
  { s with selectedApplication := none, dialogHidden := true,
           categoryGroupHidden := false, itemGridHidden := false,
           leftHidden := false, rightHidden := false }

/-- Observable side effects of the dispatcher. -/
inductive Act where
  | downloadPrint
deriving DecidableEq, Repr

/-- `download_application()` (code.py:581-586): return immediately when no
application is selected, otherwise only print the stub message.  The
session state is untouched either way. -/
def downloadApplication (s : Store) : Store × List Act :=
  match s.selectedApplication with
  | none => (s, [])
  | some _ => (s, [.downloadPrint])

/-- The hit-test results at a click point, in the priority order the
dispatcher checks them (geometry is the toolkit's business): the grid cell
under the cursor, the two arrows, the first category button containing the
point, and the two dialog buttons. -/
structure HitInfo where
  cell : Option (Nat × Nat)
  onRight : Bool
  onLeft : Bool
  categoryLabel : Option (List Char)
  onYes : Bool
  onNo : Bool

/-- Outcome of one dispatched press. -/
inductive PressOut where
  | ok (s : Store) (acts : List Act)
  | err (e : PyErr) (s : Store)
deriving DecidableEq, Repr

/-- One edge-triggered press of `mouse_task` (code.py:603-619): with the
dialog hidden, try the item grid (`select_application` of
`cell.y * PAGE_COLUMNS + cell.x`), then the right arrow, the left arrow,
and the category buttons; with the dialog visible, the Yes button runs
`download_application` and the No button runs `deselect_application`. -/
def dispatchPress (cfg : Cfg) (env : NetEnv) (s : Store) (h : HitInfo) :
    PressOut :=
  if s.dialogHidden then
    match h.cell with
    | some (cx, cy) =>
      match selectApplication cfg s ((cy * cfg.cols + cx : Nat) : Int) with
      | .ok s' => .ok s' []
      | .err e s' => .err e s'
    | none =>
      if h.onRight then
        match nextPage cfg env s with
        | .ok s' => .ok s' []
        | .err e s' => .err e s'
      else if h.onLeft then
        match prevPage cfg env s with
        | .ok s' => .ok s' []
        | .err e s' => .err e s'
      else
        match h.categoryLabel with
        | some lbl =>
          match selectCategory cfg env s lbl with
          | .ok s' => .ok s' []
          | .err e s' => .err e s'
        | none => .ok s []
  else if h.onYes then
    match downloadApplication s with
    | (s', acts) => .ok s' acts
  else if h.onNo then .ok (deselectApplication s) []
  else .ok s []

/-! ### Auxiliary predicates for the title-derivation analysis -/

/-- Every adjacent pair of characters satisfies `p`. -/
def pairsOkP (p : Char → Char → Bool) : List Char → Bool
  | [] => true
  | [_] => true
  | a :: b :: t => p a b && pairsOkP p (b :: t)

/-- No two adjacent separator (`-`/`_`) characters. -/
def noAdjSepB (s : List Char) : Bool :=
  pairsOkP (fun a b => !(isSepC a && isSepC b)) s

/-- No two adjacent space characters. -/
def noAdjSpaceB (l : List Char) : Bool :=
  pairsOkP (fun a b => !(a == ' ' && b == ' ')) l

/-- The combined effect on one character of the two `replace` calls of the
title derivation: separators become spaces, everything else is kept. -/
def sepToSpace (c : Char) : Char := if isSepC c then ' ' else c

/-- Whether an item population step returned without raising. -/
def isOkItem : ItemOut → Bool
  | .ok _ _ => true
  | .err _ _ => false

/-! ### Concrete instances used by the counterexamples and witnesses -/

/-- The small-display grid shape: `SCALE = 1`, so one column, three rows
(code.py:82, 95-97). -/
def cfg1 : Cfg := ⟨1, 3⟩

/-- A network where every fetch raises `OSError` (device offline); images
decode; nothing is installed. -/
def env0 : NetEnv :=
  { fetchRepo := fun _ => .err .osError, fetchMeta := fun _ => .err .osError,
    fetchIcon := fun _ => .err .osError, decodeImg := fun _ => .ok (),
    installed := fun _ => false }

/-- A one-category catalog with a single application. -/
def catalog1 : List (List Char × List (List Char)) :=
  [("Games".data, ["acme/pong".data])]

/-- The session right after startup (code.py:126-361, 419, 537): dialog
hidden, everything else visible, all slots hidden, page label `"0/0"`,
no selection yet. -/
def store0 : Store :=
  { catalog := catalog1, selectedCategory := none, currentPage := 0,
    pageLabel := "0/0".data, slots := List.replicate 3 slotInit,
    buttonSelected := [false], selectedApplication := none,
    dialogHidden := true, categoryGroupHidden := false,
    itemGridHidden := false, leftHidden := false, rightHidden := false }

/-- The slot state populated for `acme/pong` while offline: visible,
default icon, derived title, owner from the catalog identifier, blank
description after the failed repository fetch. -/
def pongOffSlot : Slot :=
  { hidden := false, icon := .default, title := "Pong".data,
    author := "acme".data, descr := [], installedHidden := true }

/-- The state `select_category(categories[0])` (code.py:533) reaches from
`store0` while offline: `Games` selected, first page shown. -/
def c1s1 : Store :=
  { catalog := catalog1, selectedCategory := some "Games".data,
    currentPage := 0, pageLabel := "1/1".data,
    slots := [pongOffSlot, slotInit, slotInit],
    buttonSelected := [true], selectedApplication := none,
    dialogHidden := true, categoryGroupHidden := false,
    itemGridHidden := false, leftHidden := false, rightHidden := false }

/-- The state at which `select_application(0)`'s four-name unpacking of the
five-child item group raises: application recorded, navigation hidden, and
the dialog STILL hidden. -/
def c1s2 : Store :=
  { c1s1 with selectedApplication := some "acme/pong".data,
              categoryGroupHidden := true, itemGridHidden := true,
              leftHidden := true, rightHidden := true }

/-- The dialog-open state `select_application` was meant to reach
(navigation hidden, dialog visible, an application selected). -/
def c2s : Store := { c1s2 with dialogHidden := false }

/-- A press landing on the dialog's Yes button only. -/
def hitYes : HitInfo :=
  { cell := none, onRight := false, onLeft := false, categoryLabel := none,
    onYes := true, onNo := false }

/-- Catalog with a seven-item category `A` and an empty category `B`. -/
def catalog4 : List (List Char × List (List Char)) :=
  [("A".data, ["u/a1".data, "u/a2".data, "u/a3".data, "u/a4".data,
               "u/a5".data, "u/a6".data, "u/a7".data]),
   ("B".data, [])]

/-- A session on page 2 of category `A` (seven items, three per page). -/
def c4s : Store :=
  { catalog := catalog4, selectedCategory := some "A".data,
    currentPage := 2, pageLabel := "3/3".data,
    slots := [slotInit, slotInit, slotInit],
    buttonSelected := [true, false], selectedApplication := none,
    dialogHidden := true, categoryGroupHidden := false,
    itemGridHidden := false, leftHidden := false, rightHidden := false }

/-- A remote endpoint that always answers with an unparseable body. -/
def remote8 : List Char → Option (List Char) := fun _ => some "BAD".data

/-- A remote endpoint that is unreachable (every `wget` raises). -/
def remoteDown : List Char → Option (List Char) := fun _ => none

/-- A JSON parser accepting exactly the body `"{}"`. -/
def parse8 : List Char → Option Unit :=
  fun c => if c = "{}".data then some () else none

/-- The repository-document URL for `acme/pong`. -/
def u8 : List Char := repoApiUrl "acme/pong".data

/-- The explicit cache name `show_page` passes for that document. -/
def nm8 : Option (List Char) := some "acme_pong".data

/-- First `download_json` call for `acme/pong` on an empty cache against
the malformed remote. -/
def o8 : DlOut Unit := downloadJsonFn remote8 parse8 [] u8 nm8

/-- The same call re-run on the cache state the first call left behind. -/
def o8b : DlOut Unit := downloadJsonFn remote8 parse8 o8.fs u8 nm8

/-- A cache that already holds a well-formed body at the derived path. -/
def fsHit : FS := [(cachePath u8 ".json".data nm8, "{}".data)]

/-- The repository document for `acme/pong` with default branch `master`. -/
def repoMaster : RepoInfo :=
  { ownerLogin := "acme".data, description := "Pong game".data,
    defaultBranch := "master".data, name := "pong".data }

/-- The repository document for `acme/pong` with default branch `main`. -/
def repoMain : RepoInfo :=
  { ownerLogin := "acme".data, description := "Pong game".data,
    defaultBranch := "main".data, name := "pong".data }

/-- A metadata document with a title and no optional fields. -/
def metaPlain : MetaInfo :=
  { title := "Pong".data, descr := none, icon := none }

/-- A metadata document that also names an icon file. -/
def metaIcon : MetaInfo :=
  { title := "Pong".data, descr := none, icon := some "icon.bmp".data }

/-- A healthy network for a repository whose default branch is `master`
and whose metadata carries no icon. -/
def envB : NetEnv :=
  { fetchRepo := fun _ => .ok repoMaster, fetchMeta := fun _ => .ok metaPlain,
    fetchIcon := fun _ => .err .osError, decodeImg := fun _ => .ok (),
    installed := fun _ => false }

/-- A network where the icon download succeeds but the downloaded file
fails to decode. -/
def envDecodeFail : NetEnv :=
  { fetchRepo := fun _ => .ok repoMain, fetchMeta := fun _ => .ok metaIcon,
    fetchIcon := fun _ => .ok "/sd/.cache/pong_icon.bmp".data,
    decodeImg := fun _ => .err .valueError, installed := fun _ => false }

/-- A network where the icon download itself fails (a caught kind). -/
def envIconFail : NetEnv :=
  { fetchRepo := fun _ => .ok repoMain, fetchMeta := fun _ => .ok metaIcon,
    fetchIcon := fun _ => .err .osError, decodeImg := fun _ => .ok (),
    installed := fun _ => false }

/-- The slot state for `acme/pong` after both documents arrived (title and
description from the documents, default icon). -/
def pongSlot : Slot :=
  { hidden := false, icon := .default, title := "Pong".data,
    author := "acme".data, descr := "Pong game".data,
    installedHidden := true }

/-! ## Theorems -/

/-! ### Arithmetic helpers -/

/-- A ceiling division bound: `n ≤ ⌈n/m⌉ * m`. -/
theorem le_ceilDiv_mul (n m : Nat) (hm : 0 < m) : n ≤ ceilDivN n m * m := by
  cases n with
  | zero => exact Nat.zero_le _
  | succ n =>
    have hd : ceilDivN (n + 1) m = n / m + 1 := by
      unfold ceilDivN
      have he : n + 1 + m - 1 = n + m := by omega
      rw [he, Nat.add_div_right _ hm]
    rw [hd]
    have h1 := Nat.div_add_mod n m
    have h2 := Nat.mod_lt n hm
    calc n + 1 = m * (n / m) + n % m + 1 := by rw [h1]
      _ ≤ m * (n / m) + m := by omega
      _ = (n / m + 1) * m := by ring

/-! ### C3 -/

/-- C3: for every selected category with `N` items and every page index
outside `[0, ceil(N / PAGE_SIZE))` — in particular the pages
`next_page`/`previous_page` request at the catalog boundary —
`show_page(page)` returns with the entire session state unchanged: the
current page, the page label and every slot's visibility are untouched
(no wraparound). -/
theorem showPageOutOfRangeIsNoop (cfg : Cfg) (env : NetEnv) (s : Store)
    (cat : List Char) (apps : List (List Char)) (page : Int)
    (hc : 0 < cfg.cols) (hr : 0 < cfg.rows)
    (hsel : s.selectedCategory = some cat)
    (hlook : lookupA s.catalog cat = some apps)
    (hout : page < 0 ∨ ((ceilDivN apps.length cfg.pageSize : Nat) : Int) ≤ page) :
    showPage cfg env s page = .ok s := by
  have hps : (0 : Int) < (cfg.pageSize : Int) := by
    exact_mod_cast Nat.mul_pos hc hr
  have hcond : page * (cfg.pageSize : Int) < 0 ∨
      ((apps.length : Nat) : Int) ≤ page * (cfg.pageSize : Int) := by
    rcases hout with hneg | hge
    · exact Or.inl (mul_neg_of_neg_of_pos hneg hps)
    · refine Or.inr ?_
      have h1 : (apps.length : Int) ≤
          ((ceilDivN apps.length cfg.pageSize : Nat) : Int) * (cfg.pageSize : Int) := by
        exact_mod_cast le_ceilDiv_mul apps.length cfg.pageSize (Nat.mul_pos hc hr)
      have h2 : ((ceilDivN apps.length cfg.pageSize : Nat) : Int) * (cfg.pageSize : Int) ≤
          page * (cfg.pageSize : Int) :=
        mul_le_mul_of_nonneg_right hge (le_of_lt hps)
      exact le_trans h1 h2
  simp only [showPage, hsel, hlook]
  rw [if_pos hcond]

/-- Witness for C3: requesting page 5 of the one-page `Games` category
leaves the offline session untouched. -/
theorem showPageOutOfRangeIsNoop_witness :
    showPage cfg1 env0 c1s1 5 = .ok c1s1 :=
  showPageOutOfRangeIsNoop cfg1 env0 c1s1 "Games".data ["acme/pong".data] 5
    (by decide) (by decide) (by decide) (by decide) (by decide)

/-! ### C1 -/

/-- C1: the complementarity invariant is broken by the code.  From the
reachable post-startup state (`select_category(categories[0])` from
`store0`), tapping the only item — `select_application(0)` with an
in-range index — raises `ValueError` while unpacking the five-child item
group into four names (code.py:557, unlike the five-name unpacking at
code.py:439), AFTER hiding the category buttons, grid and arrows but
BEFORE revealing the dialog: the session ends with the dialog hidden AND
all navigation hidden, so neither of {dialog visible, navigation visible}
holds. -/
theorem selectApplicationBreaksComplementarity :
    selectCategory cfg1 env0 store0 "Games".data = .ok c1s1
    ∧ selectApplication cfg1 c1s1 0 = .err .valueError c1s2
    ∧ c1s2.dialogHidden = true
    ∧ c1s2.categoryGroupHidden = true
    ∧ c1s2.itemGridHidden = true
    ∧ c1s2.leftHidden = true
    ∧ c1s2.rightHidden = true := by
  refine ⟨by decide, by decide, ?_, ?_, ?_, ?_, ?_⟩ <;> decide

/-! ### C2 -/

/-- C2 counterexample: with the dialog visible and an application
selected, a press on the Yes button invokes the install stub but leaves
the session state — in particular `dialog_group.hidden = False` —
completely unchanged: the dialog does NOT transition back to hidden. -/
theorem dispatchYesLeavesDialogVisible :
    dispatchPress cfg1 env0 c2s hitYes = .ok c2s [Act.downloadPrint]
    ∧ c2s.dialogHidden = false := by
  exact ⟨by decide, by decide⟩

/-- C2 amended: whenever the dialog is visible and the Yes button is
pressed while an application is selected, the dispatcher invokes the
install stub (`download_application`, which only prints) and the session
state is unchanged — the dialog stays visible; only the No button hides
it. -/
theorem dispatchYesInvokesStubOnly (cfg : Cfg) (env : NetEnv) (s : Store)
    (h : HitInfo) (hdh : s.dialogHidden = false) (hy : h.onYes = true)
    (hsa : s.selectedApplication ≠ none) :
    dispatchPress cfg env s h = .ok s [Act.downloadPrint] := by
  unfold dispatchPress
  rw [hdh, hy]
  simp only [Bool.false_eq_true, if_false, if_true]
  unfold downloadApplication
  cases hs : s.selectedApplication with
  | none => exact absurd hs hsa
  | some a => rfl

/-- Witness for C2's amended theorem at the concrete dialog-open state. -/
theorem dispatchYesInvokesStubOnly_witness :
    dispatchPress cfg1 env0 c2s hitYes = .ok c2s [Act.downloadPrint] :=
  dispatchYesInvokesStubOnly cfg1 env0 c2s hitYes (by decide) (by decide)
    (by decide)

/-! ### C5 -/

/-- C5 counterexample: title derivation is NOT idempotent.  For the short
name `"fruit-jam-fruit-jam-pong"` the first application yields
`"Fruit Jam Pong"`, and applying the derivation to that output strips the
surviving brand words again, yielding `"Pong"` — not the identity. -/
theorem deriveTitleNotIdempotent :
    deriveTitle "fruit-jam-fruit-jam-pong".data = some "Fruit Jam Pong".data
    ∧ deriveTitle "Fruit Jam Pong".data = some "Pong".data
    ∧ "Pong".data ≠ "Fruit Jam Pong".data := by
  refine ⟨by decide, by decide, by decide⟩

/-- C5 amended: title derivation is a deterministic pure function of the
short name; it maps `"fruit-jam-drum-machine"` to `"Drum Machine"` and
`"my_cool_app"` to `"My Cool App"`, and re-applying it to these two
outputs is the identity — but (per the counterexample) it is not
idempotent on every input, since an output that still begins with
`"Fruit Jam"` is stripped again by a second application. -/
theorem deriveTitleExamples :
    deriveTitle "fruit-jam-drum-machine".data = some "Drum Machine".data
    ∧ deriveTitle "my_cool_app".data = some "My Cool App".data
    ∧ deriveTitle "Drum Machine".data = some "Drum Machine".data
    ∧ deriveTitle "My Cool App".data = some "My Cool App".data := by
  refine ⟨by decide, by decide, by decide, by decide⟩

/-! ### C6 -/

/-- A key at the head of the cache is found. -/
theorem lookupFS_cons_self (p c : List Char) (fs : FS) :
    lookupFS ((p, c) :: fs) p = some c := by
  simp [lookupFS]

/-- Complete case analysis of `_download_file`: a cache hit returns the
derived path untouched and request-free; a cache miss either fails with
the network (one request, cache unchanged) or downloads the body to the
derived path (one request). -/
theorem downloadFileFn_cases (remote : List Char → Option (List Char))
    (fs : FS) (url ext : List Char) (nm : Option (List Char)) :
    (lookupFS fs (cachePath url ext nm) ≠ none ∧
      downloadFileFn remote fs url ext nm = ⟨.ok (cachePath url ext nm), fs, 0⟩)
    ∨ (lookupFS fs (cachePath url ext nm) = none ∧ remote url = none ∧
      downloadFileFn remote fs url ext nm = ⟨.err .osError, fs, 1⟩)
    ∨ (∃ content, lookupFS fs (cachePath url ext nm) = none ∧
      remote url = some content ∧
      downloadFileFn remote fs url ext nm =
        ⟨.ok (cachePath url ext nm),
         (cachePath url ext nm, content) :: fs, 1⟩) := by
  simp only [downloadFileFn]
  cases hl : lookupFS fs (cachePath url ext nm) with
  | some c => exact Or.inl ⟨by simp, rfl⟩
  | none =>
    cases hr : remote url with
    | none => exact Or.inr (Or.inl ⟨rfl, rfl, rfl⟩)
    | some content => exact Or.inr (Or.inr ⟨content, rfl, rfl, rfl⟩)

/-- A cache hit makes `_download_file` request-free. -/
theorem downloadFileFn_hit (remote : List Char → Option (List Char))
    (fs : FS) (url ext : List Char) (nm : Option (List Char))
    (hne : lookupFS fs (cachePath url ext nm) ≠ none) :
    (downloadFileFn remote fs url ext nm).wgets = 0 ∧
    (downloadFileFn remote fs url ext nm).fs = fs := by
  rcases downloadFileFn_cases remote fs url ext nm with
    ⟨_, heq⟩ | ⟨hl, _, _⟩ | ⟨content, hl, _, _⟩
  · rw [heq]
    exact ⟨rfl, rfl⟩
  · exact absurd hl hne
  · exact absurd hl hne

/-- A cache hit makes `download_json` request-free and cache-preserving. -/
theorem downloadJsonFn_hit {α : Type} (remote : List Char → Option (List Char))
    (parse : List Char → Option α) (fs : FS) (url : List Char)
    (nm : Option (List Char))
    (hne : lookupFS fs (cachePath url jsonExt nm) ≠ none) :
    (downloadJsonFn remote parse fs url nm).wgets = 0 ∧
    (downloadJsonFn remote parse fs url nm).fs = fs := by
  rcases downloadFileFn_cases remote fs url jsonExt nm with
    ⟨_, heq⟩ | ⟨hl, _, _⟩ | ⟨content, hl, _, _⟩
  · simp only [downloadJsonFn, heq]
    cases hlf : lookupFS fs (cachePath url jsonExt nm) with
    | none => exact absurd hlf hne
    | some content =>
      cases hp : parse content with
      | none => simp [hp]
      | some v => simp [hp]
  · exact absurd hl hne
  · exact absurd hl hne

/-- After a successful `download_json`, a file is present at the derived
cache path. -/
theorem downloadJsonFn_ok_cached {α : Type}
    (remote : List Char → Option (List Char)) (parse : List Char → Option α)
    (fs : FS) (url : List Char) (nm : Option (List Char)) (j : α)
    (hok : (downloadJsonFn remote parse fs url nm).result = .ok j) :
    lookupFS (downloadJsonFn remote parse fs url nm).fs
      (cachePath url jsonExt nm) ≠ none := by
  rcases downloadFileFn_cases remote fs url jsonExt nm with
    ⟨hne, heq⟩ | ⟨hl, hr, heq⟩ | ⟨content, hl, hr, heq⟩
  · simp only [downloadJsonFn, heq] at hok ⊢
    cases hlf : lookupFS fs (cachePath url jsonExt nm) with
    | none => exact absurd hlf hne
    | some content =>
      simp only [hlf] at hok ⊢
      cases hp : parse content with
      | none => simp [hp] at hok
      | some v => simp [hp, hlf]
  · simp only [downloadJsonFn, heq] at hok
    simp at hok
  · simp only [downloadJsonFn, heq, lookupFS_cons_self] at hok ⊢
    cases hp : parse content with
    | none => simp [hp] at hok
    | some v => simp [hp, lookupFS_cons_self]

/-- C6: the cache path is a pure function of `(url, extension, name)` —
whenever `_download_file` returns a path it is exactly
`cachePath url ext name` — and a file already present at that path makes
the call return without any network request; consequently a successful
`download_json` or `download_image` call is never followed by a second
download for the same inputs, whatever the cached content. -/
theorem downloadCachingAtMostOnce (α : Type)
    (remote : List Char → Option (List Char)) (parse : List Char → Option α)
    (fs : FS) (url ext : List Char) (nm : Option (List Char)) :
    ((downloadFileFn remote fs url ext nm).result = .ok (cachePath url ext nm)
      ∨ (downloadFileFn remote fs url ext nm).result = .err .osError)
    ∧ (lookupFS fs (cachePath url ext nm) ≠ none →
        (downloadFileFn remote fs url ext nm).wgets = 0)
    ∧ (∀ j : α, (downloadJsonFn remote parse fs url nm).result = .ok j →
        (downloadJsonFn remote parse
          (downloadJsonFn remote parse fs url nm).fs url nm).wgets = 0)
    ∧ (∀ p : List Char, (downloadImageFn remote fs url nm).result = .ok p →
        (downloadFileFn remote
          (downloadImageFn remote fs url nm).fs url bmpExt nm).wgets = 0) := by
  refine ⟨?_, ?_, ?_, ?_⟩
  · rcases downloadFileFn_cases remote fs url ext nm with
      ⟨_, heq⟩ | ⟨_, _, heq⟩ | ⟨content, _, _, heq⟩
    · rw [heq]
      exact Or.inl rfl
    · rw [heq]
      exact Or.inr rfl
    · rw [heq]
      exact Or.inl rfl
  · intro hne
    exact (downloadFileFn_hit remote fs url ext nm hne).1
  · intro j hok
    exact (downloadJsonFn_hit remote parse
      (downloadJsonFn remote parse fs url nm).fs url nm
      (downloadJsonFn_ok_cached remote parse fs url nm j hok)).1
  · intro p hok
    have hcached : lookupFS (downloadImageFn remote fs url nm).fs
        (cachePath url bmpExt nm) ≠ none := by
      unfold downloadImageFn at hok ⊢
      rcases downloadFileFn_cases remote fs url bmpExt nm with
        ⟨hne, heq⟩ | ⟨hl, hr, heq⟩ | ⟨content, hl, hr, heq⟩
      · rw [heq]
        exact hne
      · rw [heq] at hok
        exact absurd hok (by simp)
      · rw [heq]
        simp [lookupFS_cons_self]
    exact (downloadFileFn_hit remote (downloadImageFn remote fs url nm).fs
      url bmpExt nm hcached).1

/-- Witness for C6: with `"{}"` already cached at the derived path, the
`_download_file` call issues no request, and a successful first
`download_json` on an empty cache is followed by a request-free rerun. -/
theorem downloadCachingAtMostOnce_witness :
    (downloadFileFn remote8 fsHit u8 ".json".data nm8).wgets = 0
    ∧ (downloadJsonFn (fun _ => some "{}".data) parse8
        (downloadJsonFn (fun _ => some "{}".data) parse8 [] u8 nm8).fs
        u8 nm8).wgets = 0 :=
  ⟨(downloadCachingAtMostOnce Unit remote8 parse8 fsHit u8 ".json".data nm8).2.1
      (by decide),
   (downloadCachingAtMostOnce Unit (fun _ => some "{}".data) parse8 [] u8
      "x".data nm8).2.2.1 () (by decide)⟩

/-! ### C8 -/

/-- C8 counterexample: a malformed response is NOT re-fetched on revisit.
Against a remote that answers `"BAD"` (unparseable), the first
`download_json` issues one `wget` — which caches the malformed body —
and fails with `ValueError`; re-running the same call issues ZERO network
requests and fails again, serving the recorded failure from the cache. -/
theorem malformedResponseServedFromCache :
    o8.wgets = 1 ∧ o8.result = .err .valueError
    ∧ o8b.wgets = 0 ∧ o8b.result = .err .valueError := by
  refine ⟨by decide, by decide, by decide, by decide⟩

/-- C8 amended: only NETWORK-error fetch failures leave nothing in the
cache and are re-attempted on the next visit: when `wget` raises, the
cache is unchanged and a rerun issues a fresh network request.  A
malformed (unparseable) response, by contrast, is written to the cache by
`wget` before `json.loads` fails, so reruns serve it without refetching
(per the counterexample). -/
theorem networkFailureNotCachedRetries (α : Type)
    (remote : List Char → Option (List Char)) (parse : List Char → Option α)
    (fs : FS) (url : List Char) (nm : Option (List Char))
    (hdown : remote url = none)
    (hmiss : lookupFS fs (cachePath url jsonExt nm) = none) :
    (downloadJsonFn remote parse fs url nm).result = .err .osError
    ∧ (downloadJsonFn remote parse fs url nm).fs = fs
    ∧ (downloadJsonFn remote parse fs url nm).wgets = 1
    ∧ (downloadJsonFn remote parse
        (downloadJsonFn remote parse fs url nm).fs url nm).wgets = 1 := by
  simp [downloadJsonFn, downloadFileFn, hmiss, hdown]

/-- Witness for C8's amended theorem: an unreachable remote with an empty
cache fails, caches nothing, and the rerun fetches again. -/
theorem networkFailureNotCachedRetries_witness :
    (downloadJsonFn remoteDown parse8 [] u8 nm8).result = .err .osError
    ∧ (downloadJsonFn remoteDown parse8 [] u8 nm8).fs = []
    ∧ (downloadJsonFn remoteDown parse8 [] u8 nm8).wgets = 1
    ∧ (downloadJsonFn remoteDown parse8
        (downloadJsonFn remoteDown parse8 [] u8 nm8).fs u8 nm8).wgets = 1 :=
  networkFailureNotCachedRetries Unit remoteDown parse8 [] u8 nm8 rfl (by decide)

/-! ### C7 -/

/-- C7 counterexample: an icon DECODE failure escapes the population loop.
With the repository and metadata documents fetched and the icon file
downloaded, `adafruit_imageload.load` raising (it sits in the `else` of the
icon `try`, outside its protection, code.py:514) propagates out of
`populateItem` as an uncaught exception instead of falling back to the
default icon. -/
theorem iconDecodeFailureEscapes :
    populateItem envDecodeFail "acme/pong".data slotInit =
      .err .valueError pongSlot := by
  decide

/-! ### C9 -/

/-- The code's metadata URL is the spec's URL shape with the branch frozen
to `main`. -/
theorem metadataUrl_as_spec (n : List Char) :
    metadataUrl n = specMetadataUrl n "main".data := by
  unfold metadataUrl specMetadataUrl
  have h : "/refs/heads/main/metadata.json".data =
      "/refs/heads/".data ++ "main".data ++ "/metadata.json".data := by decide
  rw [h]

/-- C9 counterexample: for a repository whose default branch is `master`,
item population issues the metadata request at the hard-wired
`refs/heads/main` URL, which differs from — and is issued instead of — the
URL on the repository's default branch that the claim describes. -/
theorem metadataFetchIgnoresDefaultBranch :
    populateItem envB "acme/pong".data slotInit =
      .ok pongSlot [NetReq.repoReq (repoApiUrl "acme/pong".data),
                    NetReq.metaReq (metadataUrl "acme/pong".data)]
    ∧ metadataUrl "acme/pong".data ≠
        specMetadataUrl "acme/pong".data "master".data
    ∧ NetReq.metaReq (specMetadataUrl "acme/pong".data "master".data) ∉
        [NetReq.repoReq (repoApiUrl "acme/pong".data),
         NetReq.metaReq (metadataUrl "acme/pong".data)] := by
  refine ⟨by decide, by decide, by decide⟩

/-- C9 amended: whenever item population completes and the repository
document was fetched successfully, the per-application metadata document
request is issued at the fixed path `metadata.json` on the hard-wired
branch `main` (`.../<owner/repo>/refs/heads/main/metadata.json`) —
regardless of the repository's default branch. -/
theorem metadataFetchUsesFixedMainBranch (env : NetEnv)
    (fullName : List Char) (slot slot' : Slot) (reqs : List NetReq)
    (repo : RepoInfo)
    (hrepo : env.fetchRepo (repoApiUrl fullName) = .ok repo)
    (hpop : populateItem env fullName slot = .ok slot' reqs) :
    NetReq.metaReq (specMetadataUrl fullName "main".data) ∈ reqs := by
  rw [← metadataUrl_as_spec]
  unfold populateItem at hpop
  split at hpop
  · split at hpop
    · exact absurd hpop (by simp)
    · split at hpop
      · rename_i e heq
        rw [hrepo] at heq
        exact absurd heq (by simp)
      · rename_i repo2 heq
        rw [hrepo] at heq
        injection heq with h
        subst h
        repeat' split at hpop
        all_goals first
          | (injection hpop with h1 h2; subst h2; simp)
          | injection hpop
  · exact absurd hpop (by simp)

/-- Witness for C9's amended theorem: the `master`-branch repository still
gets its metadata request at the `refs/heads/main` URL. -/
theorem metadataFetchUsesFixedMainBranch_witness :
    NetReq.metaReq (specMetadataUrl "acme/pong".data "main".data) ∈
      [NetReq.repoReq (repoApiUrl "acme/pong".data),
       NetReq.metaReq (metadataUrl "acme/pong".data)] :=
  metadataFetchUsesFixedMainBranch envB "acme/pong".data slotInit pongSlot
    [NetReq.repoReq (repoApiUrl "acme/pong".data),
     NetReq.metaReq (metadataUrl "acme/pong".data)]
    repoMaster rfl (by decide)

/-- C7 amended: an icon FETCH failure of a caught kind degrades gracefully
— the icon was requested, the item completes with the default icon kept —
and the population loop finishes every item whenever each item's
population returns (in particular, icon-fetch failures never abort the
loop); a DECODE failure of a successfully downloaded icon, by contrast,
escapes (per the counterexample). -/
theorem iconFetchFailureFallsBack :
    (∀ (env : NetEnv) (fullName o r t : List Char) (slot : Slot)
        (repo : RepoInfo) (meta : MetaInfo) (ic : List Char) (e : PyErr),
      splitOnChar '/' fullName = [o, r] → deriveTitle r = some t →
      env.fetchRepo (repoApiUrl fullName) = .ok repo →
      env.fetchMeta (metadataUrl fullName) = .ok meta →
      meta.icon = some ic →
      env.fetchIcon (iconRawUrl fullName repo.defaultBranch ic) = .err e →
      caughtNet e = true →
      ∃ slot' reqs, populateItem env fullName slot = .ok slot' reqs
        ∧ slot'.icon = Icon.default
        ∧ NetReq.iconReq (iconRawUrl fullName repo.defaultBranch ic) ∈ reqs)
    ∧ (∀ (cfg : Cfg) (env : NetEnv) (apps : List (List Char)) (s : Store)
        (idx k : Nat),
      (∀ n ∈ apps, ∀ sl, isOkItem (populateItem env n sl) = true) →
      idx + k ≤ apps.length → idx + k ≤ cfg.pageSize → 0 < cfg.cols →
      s.slots.length = cfg.pageSize →
      isOkStep (popLoop cfg env apps s idx k) = true) := by
  constructor
  · intro env fullName o r t slot repo meta ic e hsp hd hrepo hmeta hic hfi hce
    unfold populateItem
    simp only [hsp, hd, hrepo, hmeta, hic, hfi, hce, if_true]
    cases meta.descr with
    | some d => exact ⟨_, _, rfl, rfl, by simp⟩
    | none => exact ⟨_, _, rfl, rfl, by simp⟩
  · intro cfg env apps s idx k
    induction k generalizing s idx with
    | zero => intro _ _ _ _ _; rfl
    | succ k ih =>
      intro hall hlen hps hc hslen
      have hidx : idx < apps.length := by omega
      simp only [popLoop]
      split
      · rename_i heq
        rw [List.get?_eq_none] at heq
        omega
      · rename_i n heq
        have hrow : idx / cfg.cols < cfg.rows := by
          rw [Nat.div_lt_iff_lt_mul hc]
          calc idx < cfg.pageSize := by omega
            _ = cfg.rows * cfg.cols := Nat.mul_comm _ _
        rw [if_pos hrow]
        have hflat : idx / cfg.cols * cfg.cols + idx % cfg.cols = idx := by
          rw [Nat.mul_comm]
          exact Nat.div_add_mod idx cfg.cols
        rw [hflat]
        split
        · rename_i hs
          rw [List.get?_eq_none] at hs
          omega
        · rename_i sl hs
          have hok := hall n (List.get?_mem heq) sl
          split
          · rename_i e sl' hp
            rw [hp] at hok
            simp [isOkItem] at hok
          · rename_i sl' reqs hp
            exact ih (setSlot s idx sl') (idx + 1) hall (by omega) (by omega)
              hc (by simp [setSlot, hslen])

/-- Witness for C7's amended theorem: against `envIconFail` the item for
`acme/pong` completes with the default icon after the failed icon
request. -/
theorem iconFetchFailureFallsBack_witness :
    ∃ slot' reqs,
      populateItem envIconFail "acme/pong".data slotInit = .ok slot' reqs
      ∧ slot'.icon = Icon.default
      ∧ NetReq.iconReq
          (iconRawUrl "acme/pong".data repoMain.defaultBranch
            "icon.bmp".data) ∈ reqs :=
  iconFetchFailureFallsBack.1 envIconFail "acme/pong".data "acme".data
    "pong".data "Pong".data slotInit repoMain metaIcon "icon.bmp".data
    .osError (by decide) (by decide) rfl rfl rfl rfl rfl

/-! ### C4 -/

/-- The population loop only writes item slots: the selection, catalog,
page, button and label fields of the state it ends in (normally or by an
escaping exception) are those it started with. -/
theorem popLoop_pres (cfg : Cfg) (env : NetEnv) (apps : List (List Char))
    (k : Nat) :
    ∀ (s : Store) (idx : Nat),
      (stepState (popLoop cfg env apps s idx k)).selectedCategory =
        s.selectedCategory
      ∧ (stepState (popLoop cfg env apps s idx k)).catalog = s.catalog
      ∧ (stepState (popLoop cfg env apps s idx k)).currentPage = s.currentPage
      ∧ (stepState (popLoop cfg env apps s idx k)).buttonSelected =
        s.buttonSelected
      ∧ (stepState (popLoop cfg env apps s idx k)).pageLabel = s.pageLabel := by
  induction k with
  | zero =>
    intro s idx
    exact ⟨rfl, rfl, rfl, rfl, rfl⟩
  | succ k ih =>
    intro s idx
    simp only [popLoop]
    split
    · exact ⟨rfl, rfl, rfl, rfl, rfl⟩
    · split
      · split
        · exact ⟨rfl, rfl, rfl, rfl, rfl⟩
        · split
          · exact ⟨rfl, rfl, rfl, rfl, rfl⟩
          · rename_i sl' reqs hp
            exact ih _ _
      · exact ⟨rfl, rfl, rfl, rfl, rfl⟩

/-- `show_page` never changes the selected category, the catalog or the
button selection, whatever it does to the page fields and slots. -/
theorem showPage_pres (cfg : Cfg) (env : NetEnv) (s : Store) (page : Int) :
    (stepState (showPage cfg env s page)).selectedCategory =
      s.selectedCategory
    ∧ (stepState (showPage cfg env s page)).catalog = s.catalog
    ∧ (stepState (showPage cfg env s page)).buttonSelected =
      s.buttonSelected := by
  simp only [showPage]
  split
  · exact ⟨rfl, rfl, rfl⟩
  · split
    · exact ⟨rfl, rfl, rfl⟩
    · rename_i cat apps hlook
      split
      · exact ⟨rfl, rfl, rfl⟩
      · exact (popLoop_pres cfg env apps _ _ _).imp id
          (fun h => ⟨h.1, h.2.2.1⟩)

/-- Loading page zero of a non-empty selected category sets the page index
to zero and the page label to `1/total`, even when an item of the page
raises during population. -/
theorem showPage_zero (cfg : Cfg) (env : NetEnv) (s : Store)
    (cat : List Char) (apps : List (List Char))
    (hsel : s.selectedCategory = some cat)
    (hlook : lookupA s.catalog cat = some apps) (hne : apps ≠ []) :
    (stepState (showPage cfg env s 0)).currentPage = 0
    ∧ (stepState (showPage cfg env s 0)).pageLabel =
      fmtPage 1 (ceilDivN apps.length cfg.pageSize) := by
  have hlen : 0 < apps.length := List.length_pos.mpr hne
  simp only [showPage, hsel, hlook]
  rw [if_neg (by omega)]
  exact ⟨(popLoop_pres cfg env apps _ _ _).2.2.1,
         (popLoop_pres cfg env apps _ _ _).2.2.2.2⟩

/-- C4 counterexample: selecting a DIFFERENT valid category does not
always reset the page index.  From page 2 of the seven-item category `A`,
selecting the empty category `B` succeeds and records the new selection,
but `show_page(0)` returns before touching `current_page` (its start index
0 is not below the empty category's length), so the page index stays 2
instead of being reset to zero. -/
theorem selectCategoryEmptyKeepsPage :
    isOkStep (selectCategory cfg1 env0 c4s "B".data) = true
    ∧ (stepState (selectCategory cfg1 env0 c4s "B".data)).selectedCategory =
        some "B".data
    ∧ (stepState (selectCategory cfg1 env0 c4s "B".data)).currentPage = 2
    ∧ (stepState (selectCategory cfg1 env0 c4s "B".data)).currentPage ≠ 0 := by
  refine ⟨by decide, by decide, by decide, by decide⟩

/-- C4 amended: `select_category(name)` is a no-op when `name` is not a
catalog key or is already selected (hence selecting the same valid
category twice in a row is idempotent, third conjunct); for a different
catalog key it records the selection, updates the button selection, hides
all item slots and loads the first page — resetting the page index to
zero and rewriting the page label whenever the new category is non-empty,
but LEAVING THE PAGE INDEX UNCHANGED when the new category is empty
(`show_page(0)` returns early in that case). -/
theorem selectCategoryContract (cfg : Cfg) (env : NetEnv) (s : Store)
    (name : List Char) :
    ((name ∉ s.catalog.map Prod.fst ∨ s.selectedCategory = some name) →
      selectCategory cfg env s name = .ok s)
    ∧ (∀ apps, name ∈ s.catalog.map Prod.fst →
        s.selectedCategory ≠ some name →
        lookupA s.catalog name = some apps →
        (stepState (selectCategory cfg env s name)).selectedCategory =
          some name
        ∧ (stepState (selectCategory cfg env s name)).buttonSelected =
          (s.catalog.map Prod.fst).map (fun k => decide (k = name))
        ∧ (apps ≠ [] →
            (stepState (selectCategory cfg env s name)).currentPage = 0
            ∧ (stepState (selectCategory cfg env s name)).pageLabel =
              fmtPage 1 (ceilDivN apps.length cfg.pageSize))
        ∧ (apps = [] → selectCategory cfg env s name =
            .ok { s with selectedCategory := some name,
                         buttonSelected := (s.catalog.map Prod.fst).map
                           (fun k => decide (k = name)),
                         slots := s.slots.map
                           (fun sl => { sl with hidden := true }) }))
    ∧ (∀ s', selectCategory cfg env s name = .ok s' →
        selectCategory cfg env s' name = .ok s') := by
  refine ⟨?_, ?_, ?_⟩
  · intro h
    unfold selectCategory
    rw [if_pos h]
  · intro apps hmem hnsel hlook
    have hcond : ¬ (name ∉ s.catalog.map Prod.fst ∨
        s.selectedCategory = some name) := by
      rintro (h1 | h2)
      · exact h1 hmem
      · exact hnsel h2
    simp only [selectCategory]
    rw [if_neg hcond]
    refine ⟨(showPage_pres cfg env _ 0).1, (showPage_pres cfg env _ 0).2.2,
      ?_, ?_⟩
    · intro hne
      exact showPage_zero cfg env _ name apps rfl hlook hne
    · intro hempty
      subst hempty
      simp only [showPage, hideAllSlots, hlook]
      rw [if_pos (by simp)]
  · intro s' heq
    by_cases hc : (name ∉ s.catalog.map Prod.fst ∨
        s.selectedCategory = some name)
    · unfold selectCategory at heq
      rw [if_pos hc] at heq
      injection heq with h
      subst h
      unfold selectCategory
      rw [if_pos hc]
    · simp only [selectCategory] at heq
      rw [if_neg hc] at heq
      have hp : s'.selectedCategory = some name := by
        have h2 := (showPage_pres cfg env (hideAllSlots
          { s with selectedCategory := some name,
                   buttonSelected := (s.catalog.map Prod.fst).map
                     (fun k => decide (k = name)) }) 0).1
        rw [heq] at h2
        exact h2
      unfold selectCategory
      rw [if_pos (Or.inr hp)]

/-- Witness for C4's amended theorem: selecting the empty category `B`
from page 2 of `A` keeps the recorded selection but not page zero. -/
theorem selectCategoryContract_witness :
    (stepState (selectCategory cfg1 env0 c4s "B".data)).selectedCategory =
      some "B".data :=
  (((selectCategoryContract cfg1 env0 c4s "B".data).2.1) []
    (by decide) (by decide) (by decide)).1

/-! ### C10 -/

/-- An adjacency invariant survives dropping the head. -/
theorem pairsOk_tail (p : Char → Char → Bool) (a : Char) (t : List Char)
    (h : pairsOkP p (a :: t) = true) : pairsOkP p t = true := by
  cases t with
  | nil => rfl
  | cons b t2 =>
    simp only [pairsOkP, Bool.and_eq_true] at h
    exact h.2

/-- An adjacency invariant transfers along `map` when the function carries
the pair predicate for elements of the list. -/
theorem pairsOk_map (p q : Char → Char → Bool) (f : Char → Char)
    (l : List Char)
    (hpq : ∀ a ∈ l, ∀ b ∈ l, p a b = true → q (f a) (f b) = true)
    (h : pairsOkP p l = true) : pairsOkP q (l.map f) = true := by
  induction l with
  | nil => rfl
  | cons a t ih =>
    cases t with
    | nil => rfl
    | cons b t2 =>
      simp only [List.map]
      simp only [pairsOkP, Bool.and_eq_true] at h ⊢
      refine ⟨hpq a (by simp) b (by simp) h.1, ?_⟩
      exact ih
        (fun x hx y hy hp' =>
          hpq x (List.mem_cons_of_mem _ hx) y (List.mem_cons_of_mem _ hy) hp')
        h.2

/-- The head surviving `dropWhile` fails the predicate. -/
theorem dropWhile_head_false (P : Char → Bool) (l : List Char) :
    ∀ x xs, l.dropWhile P = x :: xs → P x = false := by
  induction l with
  | nil =>
    intro x xs h
    simp [List.dropWhile] at h
  | cons a t ih =>
    intro x xs h
    by_cases hp : P a = true
    · simp only [List.dropWhile, hp] at h
      exact ih x xs h
    · have hp' : P a = false := by revert hp; cases P a <;> simp
      simp only [List.dropWhile, hp'] at h
      injection h with h1 h2
      rw [← h1]
      exact hp'

/-- An adjacency invariant survives `dropWhile`. -/
theorem pairsOk_dropWhile (q : Char → Char → Bool) (P : Char → Bool)
    (l : List Char) (h : pairsOkP q l = true) :
    pairsOkP q (l.dropWhile P) = true := by
  induction l with
  | nil => rfl
  | cons a t ih =>
    by_cases hp : P a = true
    · simp only [List.dropWhile, hp]
      exact ih (pairsOk_tail q a t h)
    · have hp' : P a = false := by revert hp; cases P a <;> simp
      simp only [List.dropWhile, hp']
      exact h

/-- A witness failing the predicate survives `dropWhile`. -/
theorem dropWhile_keeps (P : Char → Bool) (l : List Char)
    (hex : ∃ c ∈ l, P c = false) :
    ∃ c ∈ l.dropWhile P, P c = false := by
  induction l with
  | nil => simp at hex
  | cons a t ih =>
    by_cases hp : P a = true
    · simp only [List.dropWhile, hp]
      apply ih
      rcases hex with ⟨x, hx, hpx⟩
      rcases List.mem_cons.mp hx with rfl | hx2
      · rw [hp] at hpx
        cases hpx
      · exact ⟨x, hx2, hpx⟩
    · have hp' : P a = false := by revert hp; cases P a <;> simp
      simp only [List.dropWhile, hp']
      exact ⟨a, List.mem_cons_self a t, hp'⟩

/-- `stripEnd` only touches the tail: a non-empty result keeps the head. -/
theorem stripEnd_head (l : List Char) :
    ∀ x xs, stripEnd l = x :: xs → l.head? = some x := by
  induction l with
  | nil =>
    intro x xs h
    simp [stripEnd] at h
  | cons c t ih =>
    intro x xs h
    simp only [stripEnd] at h
    split at h
    · split at h
      · exact absurd h (by simp)
      · injection h with h1 h2
        rw [h1]
        rfl
    · injection h with h1 h2
      rw [h1]
      rfl

/-- The last character left by `stripEnd` is not whitespace. -/
theorem stripEnd_last (l : List Char) :
    ∀ x, (stripEnd l).getLast? = some x → pyIsSpace x = false := by
  induction l with
  | nil =>
    intro x h
    simp [stripEnd] at h
  | cons c t ih =>
    intro x h
    simp only [stripEnd] at h
    split at h
    · split at h
      · simp at h
      · rename_i hcs
        have hx : c = x := by simpa using h
        subst hx
        cases hb : pyIsSpace c with
        | false => rfl
        | true => exact absurd hb hcs
    · rename_i hse
      cases hr2 : stripEnd t with
      | nil => exact absurd hr2 hse
      | cons y ys =>
        rw [hr2, List.getLast?_cons_cons, ← hr2] at h
        exact ih x h

/-- An adjacency invariant survives `stripEnd`. -/
theorem pairsOk_stripEnd (q : Char → Char → Bool) (l : List Char)
    (h : pairsOkP q l = true) : pairsOkP q (stripEnd l) = true := by
  induction l with
  | nil => rfl
  | cons c t ih =>
    simp only [stripEnd]
    split
    · split
      · rfl
      · rfl
    · rename_i hse
      cases hr2 : stripEnd t with
      | nil => exact absurd hr2 hse
      | cons y ys =>
        have hth : t.head? = some y := stripEnd_head t y ys hr2
        cases t with
        | nil => simp at hth
        | cons a t2 =>
          injection hth with hay
          simp only [pairsOkP, Bool.and_eq_true] at h ⊢
          refine ⟨by rw [← hay]; exact h.1, ?_⟩
          have h2 := ih h.2
          rw [hr2] at h2
          exact h2

/-- A character failing the whitespace test keeps `stripEnd` non-empty. -/
theorem stripEnd_ne_nil (l : List Char)
    (hex : ∃ c ∈ l, pyIsSpace c = false) : stripEnd l ≠ [] := by
  induction l with
  | nil => simp at hex
  | cons c t ih =>
    simp only [stripEnd]
    split
    · rename_i hse
      split
      · rename_i hcs
        exfalso
        rcases hex with ⟨x, hx, hpx⟩
        rcases List.mem_cons.mp hx with rfl | hx2
        · rw [hcs] at hpx
          cases hpx
        · exact ih ⟨x, hx2, hpx⟩ hse
      · simp
    · simp

/-- Splitting never yields an empty list of pieces. -/
theorem splitOnChar_ne_nil (sep : Char) (l : List Char) :
    splitOnChar sep l ≠ [] := by
  cases l with
  | nil => simp [splitOnChar]
  | cons c t =>
    simp only [splitOnChar]
    split
    · simp
    · split <;> simp

/-- Splitting a string with no adjacent spaces and no trailing space gives
only non-empty pieces after the first, and a non-empty first piece when
the string is non-empty and has no leading space. -/
theorem splitSp_words (l : List Char) :
    noAdjSpaceB l = true → l.getLast? ≠ some ' ' →
    ∀ w ws, splitOnChar ' ' l = w :: ws →
      (∀ u ∈ ws, u ≠ []) ∧ (l.head? ≠ some ' ' → l ≠ [] → w ≠ []) := by
  induction l with
  | nil =>
    intro _ _ w ws h
    simp only [splitOnChar] at h
    injection h with h1 h2
    refine ⟨?_, ?_⟩
    · rw [← h2]
      intro u hu
      simp at hu
    · intro _ hne
      exact absurd rfl hne
  | cons c t ih =>
    intro hadj hlast w ws h
    cases hsp : splitOnChar ' ' t with
    | nil => exact absurd hsp (splitOnChar_ne_nil ' ' t)
    | cons w2 ws2 =>
      simp only [splitOnChar, hsp] at h
      by_cases hc : (c == ' ') = true
      · rw [if_pos hc] at h
        have hceq : c = ' ' := by simpa using hc
        injection h with h1 h2
        have htne : t ≠ [] := by
          intro he
          subst he
          subst hceq
          simp [List.getLast?] at hlast
        obtain ⟨a, t2, rfl⟩ : ∃ a t2, t = a :: t2 := by
          cases t with
          | nil => exact absurd rfl htne
          | cons a t2 => exact ⟨a, t2, rfl⟩
        have hta : (a == ' ') = false := by
          subst hceq
          simp only [noAdjSpaceB, pairsOkP, Bool.and_eq_true] at hadj
          have h1a := hadj.1
          revert h1a
          cases hab : (a == ' ') with
          | false => intro _; rfl
          | true => simp
        have hlast2 : (a :: t2).getLast? ≠ some ' ' := by
          rw [List.getLast?_cons_cons] at hlast
          exact hlast
        have hadj2 : noAdjSpaceB (a :: t2) = true :=
          pairsOk_tail _ c _ hadj
        have hrec := ih hadj2 hlast2 w2 ws2 hsp
        refine ⟨?_, ?_⟩
        · rw [← h2]
          intro u hu
          rcases List.mem_cons.mp hu with rfl | hu2
          · refine hrec.2 ?_ (by simp)
            intro hh
            injection hh with hh1
            rw [hh1] at hta
            simp at hta
          · exact hrec.1 u hu2
        · intro hhead _
          subst hceq
          exact absurd rfl hhead
      · rw [if_neg hc] at h
        injection h with h1 h2
        refine ⟨?_, ?_⟩
        · rw [← h2]
          cases t with
          | nil =>
            simp only [splitOnChar] at hsp
            injection hsp with hs1 hs2
            rw [← hs2]
            intro u hu
            simp at hu
          | cons a t2 =>
            have hlast2 : (a :: t2).getLast? ≠ some ' ' := by
              rw [List.getLast?_cons_cons] at hlast
              exact hlast
            exact (ih (pairsOk_tail _ c _ hadj) hlast2 w2 ws2 hsp).1
        · intro _ _
          rw [← h1]
          simp

/-- Title-casing succeeds on a list of non-empty words. -/
theorem titleWords_some (ws : List (List Char)) (h : ∀ w ∈ ws, w ≠ []) :
    (titleWords ws).isSome = true := by
  induction ws with
  | nil => rfl
  | cons w ws2 ih =>
    simp only [titleWords]
    cases w with
    | nil => exact absurd rfl (h [] (by simp))
    | cons ch rest =>
      cases htw : titleWords ws2 with
      | none =>
        have h2 := ih fun u hu => h u (List.mem_cons_of_mem _ hu)
        rw [htw] at h2
        simp at h2
      | some r => simp [titleCaseWord, htw]

/-- The two `replace` calls act on each character as `sepToSpace`. -/
theorem replace_as_sepToSpace (s : List Char) :
    pyReplace (pyReplace s '-' ' ') '_' ' ' = s.map sepToSpace := by
  simp only [pyReplace, List.map_map]
  apply List.map_congr_left
  intro a _
  by_cases h1 : a = '-'
  · subst h1
    decide
  · by_cases h2 : a = '_'
    · subst h2
      decide
    · have hb1 : (a == '-') = false := by simp [h1]
      have hb2 : (a == '_') = false := by simp [h2]
      simp [Function.comp, sepToSpace, isSepC, hb1, hb2]

/-- The head surviving `dropWhile`, phrased through `head?`. -/
theorem dropWhile_headq_false (P : Char → Bool) (l : List Char) (x : Char)
    (h : (l.dropWhile P).head? = some x) : P x = false := by
  cases hdw : l.dropWhile P with
  | nil =>
    rw [hdw] at h
    simp at h
  | cons y ys =>
    rw [hdw] at h
    injection h with h1
    rw [← h1]
    exact dropWhile_head_false P l y ys hdw

/-- Totality of the title derivation on well-formed repository short
names: no whitespace anywhere, no two adjacent `-`/`_` separators, and at
least one non-separator character. -/
theorem deriveTitle_some (s : List Char)
    (hnw : ∀ c ∈ s, pyIsSpace c = false)
    (hadj : noAdjSepB s = true)
    (hex : ∃ c ∈ s, isSepC c = false) :
    (deriveTitle s).isSome = true := by
  -- adjacency of spaces survives the replacement
  have hadjsp : noAdjSpaceB (s.map sepToSpace) = true := by
    apply pairsOk_map _ _ _ _ _ hadj
    intro a ha b hb hab
    have hwa := hnw a ha
    have hwb := hnw b hb
    by_cases hsa : isSepC a = true
    · by_cases hsb : isSepC b = true
      · rw [hsa, hsb] at hab
        simp at hab
      · have hsb' : isSepC b = false := by revert hsb; cases isSepC b <;> simp
        have hbne : (b == ' ') = false := by
          simp only [pyIsSpace, Bool.or_eq_false_iff] at hwb
          exact hwb.1.1.1.1.1
        simp [sepToSpace, hsa, hsb', hbne]
    · have hsa' : isSepC a = false := by revert hsa; cases isSepC a <;> simp
      have hane : (a == ' ') = false := by
        simp only [pyIsSpace, Bool.or_eq_false_iff] at hwa
        exact hwa.1.1.1.1.1
      simp [sepToSpace, hsa', hane]
  -- a surviving non-whitespace character
  have hexm : ∃ c ∈ s.map sepToSpace, pyIsSpace c = false := by
    rcases hex with ⟨c, hc, hcsep⟩
    refine ⟨c, List.mem_map.mpr ⟨c, hc, by simp [sepToSpace, hcsep]⟩, hnw c hc⟩
  -- the four facts about the stripped string
  have hne : stripEnd ((s.map sepToSpace).dropWhile pyIsSpace) ≠ [] :=
    stripEnd_ne_nil _ (dropWhile_keeps pyIsSpace _ hexm)
  have hadjt1 :
      noAdjSpaceB (stripEnd ((s.map sepToSpace).dropWhile pyIsSpace)) = true :=
    pairsOk_stripEnd _ _ (pairsOk_dropWhile _ pyIsSpace _ hadjsp)
  have hhead :
      (stripEnd ((s.map sepToSpace).dropWhile pyIsSpace)).head? ≠ some ' ' := by
    intro hcon
    cases hcase : stripEnd ((s.map sepToSpace).dropWhile pyIsSpace) with
    | nil => exact hne hcase
    | cons x xs =>
      rw [hcase] at hcon
      injection hcon with hcon1
      have hdq := stripEnd_head _ x xs hcase
      rw [hcon1] at hdq
      have := dropWhile_headq_false pyIsSpace (s.map sepToSpace) ' ' hdq
      simp [pyIsSpace] at this
  have hlast :
      (stripEnd ((s.map sepToSpace).dropWhile pyIsSpace)).getLast? ≠
        some ' ' := by
    intro hcon
    have := stripEnd_last _ ' ' hcon
    simp [pyIsSpace] at this
  -- all words of the split are non-empty
  simp only [deriveTitle, pyStripL, replace_as_sepToSpace]
  cases hsp : splitOnChar ' '
      (stripEnd ((s.map sepToSpace).dropWhile pyIsSpace)) with
  | nil => exact absurd hsp (splitOnChar_ne_nil ' ' _)
  | cons w ws =>
    have hwords := splitSp_words _ hadjt1 hlast w ws hsp
    have hall : ∀ u ∈ w :: ws, u ≠ [] := by
      intro u hu
      rcases List.mem_cons.mp hu with rfl | hu2
      · exact hwords.2 hhead hne
      · exact hwords.1 u hu2
    have htw := titleWords_some (w :: ws) hall
    cases htww : titleWords (w :: ws) with
    | none =>
      rw [htww] at htw
      simp at htw
    | some r =>
      split
      · rename_i heq
        exact absurd heq (by simp)
      · split <;> rfl

/-- C10: the title derivation in `show_page` is total — the `word[0]`
indexing never raises — for every repository short name (a string with no
whitespace) in which no two `-`/`_` separators are adjacent and which
contains at least one non-separator character; outside this precondition
it can index an empty word and raise, as on the input `"--"`. -/
theorem deriveTitleTotalOnRepoNames :
    (∀ s : List Char, (∀ c ∈ s, pyIsSpace c = false) →
      noAdjSepB s = true → (∃ c ∈ s, isSepC c = false) →
      (deriveTitle s).isSome = true)
    ∧ deriveTitle "--".data = none :=
  ⟨deriveTitle_some, by decide⟩

/-- Witness for C10 at the short name `"abc"`. -/
theorem deriveTitleTotalOnRepoNames_witness :
    (deriveTitle "abc".data).isSome = true :=
  deriveTitleTotalOnRepoNames.1 "abc".data (by decide) (by decide) (by decide)

end FruitJam
